import Mathlib

/-!
Shallow embedding of the AgriAssist chatbot backend (`backend/app1.py`).

The program is a single-request pipeline `find_best_response` plus a thin
HTTP adapter `chat`.  External collaborators (the statistical language
detector, the translation service, and the sentence-embedding model) are
modelled as oracle fields of an environment record `Env`:

* `detect` is the result of `langdetect.detect` on the trimmed input
  (`none` models the detector raising an exception, handled at line 79-81);
* `translate text dest` is the result of `translator.translate(text, ...,
  dest=dest).text` (`none` models the call raising, handled by the three
  `try/except` blocks at lines 106-113, 120-124, 136-150);
* `encodeSims query` is the row of cosine similarities
  `util.pytorch_cos_sim(sbert_model.encode(query), question_embeddings)[0]`
  of the encoded query against the stored question embeddings (lines 128-129),
  modelled over `ℚ`;
* `qaData` is the `(prompt.lower(), completion)` list loaded at startup
  (lines 21-35).

Every pattern of `predefined_responses` (lines 43-67) is a literal string
with no regular-expression metacharacter, so `re.fullmatch(pattern, text)`
holds exactly when `text = pattern`; the table is embedded as an ordered
association list (Python dicts iterate in insertion order) and full-match
as string equality.
-/

/-- The process environment and the per-request oracle results of the three
external services (see module docstring). -/
structure Env where
  qaData : List (String × String)
  detect : Option String
  translate : String → String → Option String
  encodeSims : String → List ℚ

/-- Result of `find_best_response`: the response text and the confidence. -/
structure ChatResult where
  response : String
  confidence : ℚ
deriving DecidableEq, Repr

/-- Python `str.lower()`: code-point-wise lowercasing. -/
def strLower (s : String) : String := ⟨s.data.map Char.toLower⟩

/-- Python `str.strip()`: drop leading and trailing whitespace. -/
def strTrim (s : String) : String :=
  ⟨((s.data.dropWhile Char.isWhitespace).reverse.dropWhile Char.isWhitespace).reverse⟩

/-- `listStartsWith needle hay` : `needle` occurs at the head of `hay`. -/
def listStartsWith : List Char → List Char → Bool
  | [], _ => true
  | _ :: _, [] => false
  | a :: as, b :: bs => a = b && listStartsWith as bs

/-- `strContainsSub hay needle` : Python `needle in hay` (substring containment,
scanning for an occurrence of `needle` at every position of `hay`). -/
def strContainsSubAux (needle : List Char) : List Char → Bool
  | [] => listStartsWith needle []
  | c :: cs => listStartsWith needle (c :: cs) || strContainsSubAux needle cs

def strContainsSub (hay needle : String) : Bool :=
  strContainsSubAux needle.data hay.data

/-- The fixed romanized Hindi/Marathi keyword list of lines 84-88, in source
order and with the source's duplicated entries kept. -/
def hindiMarathiKeywords : List String :=
  ["kya", "kaise", "kab", "kyu", "bhat", "sheti", "pani",
   "fasal", "ugae", "zameen", "shet", "krishi", "beej",
   "ugana", "ugaye", "khet", "paani", "anna", "jal", "khad", "rog", "beej", "sheti"]

/-- Line 89: `any(word in original_input.lower() for word in hindi_marathi_keywords)`. -/
def isRomanish (originalInput : String) : Bool :=
  hindiMarathiKeywords.any (fun word => strContainsSub (strLower originalInput) word)

/-- Line 99/103: `re.search("[ऀ-ॿ]", original_input)` — some character
of the raw text lies in the Devanagari range U+0900 to U+097F. -/
def containsDevanagari (s : String) : Bool :=
  s.data.any (fun c => decide (0x900 ≤ c.toNat) && decide (c.toNat ≤ 0x97F))

/-- Line 96: the ten-tag allow-list. -/
def allowedLanguages : List String :=
  ["en", "hi", "mr", "gu", "bn", "ta", "te", "kn", "ml", "pa"]

/-- Lines 76-93: statistical detection with `"en"` fallback on detector
exception, then the romanized-keyword override forcing `"hi"`. -/
def detectedLang (env : Env) (originalInput : String) : String :=
  if isRomanish originalInput then "hi" else env.detect.getD "en"

/-- Line 99: the rejection test — final tag outside the allow-list and no
Devanagari-range character in the raw text. -/
def rejectedB (env : Env) (originalInput : String) : Bool :=
  !(allowedLanguages.contains (detectedLang env originalInput)) &&
    !(containsDevanagari originalInput)

/-- Line 103: `needs_translation = (detected_lang != 'en') or
re.search("[ऀ-ॿ]", original_input) or is_romanish`. -/
def needsTranslation (env : Env) (originalInput : String) : Bool :=
  (detectedLang env originalInput != "en") || containsDevanagari originalInput ||
    isRomanish originalInput

/-- Lines 106-113: inbound translation of the raw input to English when
`needs_translation`, falling back to the raw input when the call raises. -/
def inboundText (env : Env) (originalInput : String) : String :=
  if needsTranslation env originalInput then
    (env.translate originalInput "en").getD originalInput
  else originalInput

/-- Lines 74 and 106-115: the processed text handed to the pattern table and
the embedding index — trimmed raw input, translated when needed, lowercased
and trimmed. -/
def processedText (env : Env) (userInput : String) : String :=
  strTrim (strLower (inboundText env (strTrim userInput)))

/-- Lines 120-124 / 136-140 / 146-150: the outbound `try/except` block —
translate an English response to the detected language when
`needs_translation`, keeping the English string when the call raises. -/
def outbound (env : Env) (originalInput response : String) : String :=
  if needsTranslation env originalInput then
    (env.translate response (detectedLang env originalInput)).getD response
  else response

/-- Lines 43-67: the `predefined_responses` table, in insertion order. -/
def predefinedResponses : List (String × String) :=
  [("how are you", "I\x27m just a chatbot, but I\x27m doing great! How about you?"),
   ("how\x27s it going", "Everything is running smoothly! How can I assist you?"),
   ("how do you do", "I\x27m doing well! Thanks for asking. How can I help?"),
   ("what is your name", "I\x27m your Agricultural Chatbot! Here to assist you with farming-related queries."),
   ("who are you", "I\x27m an AI-powered agricultural chatbot, here to help farmers and agriculture enthusiasts."),
   ("what can you do", "I can provide information related to farming, crops, and agricultural best practices."),
   ("who created you", "I was developed as part of a research project on AI and ML-powered agricultural chatbots."),
   ("are you a robot", "Yes, I\x27m an AI chatbot, designed to help with agricultural questions."),
   ("do you speak other languages", "Currently, I only support English."),
   ("tell me a joke", "Why did the farmer win an award? Because he was outstanding in his field!"),
   ("tell me something interesting", "Did you know? Earthworms can improve soil fertility by breaking down organic matter into nutrient-rich compost!"),
   ("hello", "Hello! How can I assist you today?"),
   ("hi", "Hi there! What would you like to know?"),
   ("hey", "Hey! How’s it going?"),
   ("good morning", "Good morning! Hope you have a great day ahead."),
   ("good afternoon", "Good afternoon! How can I help?"),
   ("good evening", "Good evening! Need any assistance?"),
   ("good night", "Good night! Take care and rest well."),
   ("howdy", "Howdy! What brings you here today?"),
   ("yo", "Yo! What\x27s up?"),
   ("namaste", "Namaste! How can I assist you?"),
   ("hola", "Hola! How can I help you?"),
   ("bonjour", "Bonjour! What do you need assistance with?")]

/-- Lines 118-119: first-match-wins scan of the pattern table; since every
pattern is a literal string, `re.fullmatch` is string equality. -/
def patternLookup : List (String × String) → String → Option String
  | [], _ => none
  | (p, r) :: rest, t => if t = p then some r else patternLookup rest t

/-- `np.argmax` over a similarity row: index of the first occurrence of the
maximum, accumulator-style left scan (line 131). -/
def argmaxAux : ℚ → Nat → Nat → List ℚ → Nat
  | _, bestIdx, _, [] => bestIdx
  | best, bestIdx, i, x :: xs =>
      if best < x then argmaxAux x i (i + 1) xs
      else argmaxAux best bestIdx (i + 1) xs

def argmax : List ℚ → Nat
  | [] => 0
  | x :: xs => argmaxAux x 0 1 xs

/-- The maximum of a similarity row (`0` for the empty row, which the program
never queries). -/
def maxScore : List ℚ → ℚ
  | [] => 0
  | x :: xs => xs.foldl max x

/-- Line 72: the empty-dataset message. -/
def noDataMsg : String := "Error: No data available."

/-- Line 100: the unsupported-language rejection message. -/
def rejectionMsg : String :=
  "Sorry, I can only understand major Indian languages like Hindi, Marathi, Gujarati, Bengali, Tamil, Telugu, Kannada, Malayalam, Punjabi, and English."

/-- Line 135: the low-confidence fallback string. -/
def fallbackMsg : String := "I\x27m sorry, I don\x27t have an answer for that."

/-- Lines 70-152: `find_best_response(user_input)`. -/
def find_best_response (env : Env) (userInput : String) : ChatResult :=
  if env.qaData.isEmpty then ⟨noDataMsg, 0⟩
  else if rejectedB env (strTrim userInput) then ⟨rejectionMsg, 0⟩
  else
    match patternLookup predefinedResponses (processedText env userInput) with
    | some response => ⟨outbound env (strTrim userInput) response, 1⟩
    | none =>
        let sims := env.encodeSims (processedText env userInput)
        let bestIdx := argmax sims
        let bestScore := sims.getD bestIdx 0
        if bestScore < 1 / 2 then ⟨outbound env (strTrim userInput) fallbackMsg, bestScore⟩
        else ⟨outbound env (strTrim userInput) ((env.qaData.getD bestIdx ("", "")).2), bestScore⟩

/-- Python `round` on `ℚ`: round half to even. -/
def roundHalfEven (q : ℚ) : ℤ :=
  let f := ⌊q⌋
  if q - f < 1 / 2 then f
  else if (1 : ℚ) / 2 < q - f then f + 1
  else if f % 2 = 0 then f else f + 1

/-- Line 171: `round(confidence_score, 2)`. -/
def round2 (q : ℚ) : ℚ := (roundHalfEven (100 * q) : ℚ) / 100

/-- Lines 159-172: the `POST /chat` endpoint.  `message.getD ""` models
`data.get("message", "")`; the result pairs the HTTP status code with the
response body. -/
def chat (env : Env) (message : Option String) : Nat × ChatResult :=
  let userInput := strTrim (message.getD "")
  if userInput = "" then (400, ⟨"Please enter a valid question.", 0⟩)
  else
    (200, ⟨(find_best_response env userInput).response,
           round2 (find_best_response env userInput).confidence⟩)

/-! ### Properties of `argmax` and `maxScore` -/

lemma le_foldl_max (xs : List ℚ) (b : ℚ) : b ≤ xs.foldl max b := by
  induction xs generalizing b with
  | nil => exact le_refl b
  | cons x t ih =>
      exact le_trans (le_max_left b x) (ih (max b x))

lemma mem_le_foldl_max (xs : List ℚ) (b : ℚ) : ∀ x ∈ xs, x ≤ xs.foldl max b := by
  induction xs generalizing b with
  | nil => intro x hx; cases hx
  | cons y t ih =>
      intro x hx
      rcases List.mem_cons.mp hx with h | h
      · subst h
        exact le_trans (le_max_right b x) (le_foldl_max t (max b x))
      · exact ih (max b y) x h

lemma maxScore_ge (l : List ℚ) : ∀ x ∈ l, x ≤ maxScore l := by
  cases l with
  | nil => intro x hx; cases hx
  | cons y t =>
      intro x hx
      rcases List.mem_cons.mp hx with h | h
      · subst h; exact le_foldl_max t x
      · exact mem_le_foldl_max t y x h

lemma argmaxAux_spec (full : List ℚ) (xs : List ℚ) :
    ∀ (best : ℚ) (bestIdx i : Nat),
      bestIdx < full.length →
      full.getD bestIdx 0 = best →
      (∀ j, xs.getD j 0 = full.getD (i + j) 0) →
      i + xs.length = full.length →
      argmaxAux best bestIdx i xs < full.length ∧
      full.getD (argmaxAux best bestIdx i xs) 0 = xs.foldl max best := by
  induction xs with
  | nil =>
      intro best bestIdx i hlt hval _ _
      exact ⟨hlt, hval⟩
  | cons x t ih =>
      intro best bestIdx i hlt hval hsuffix hlen
      have hx : full.getD i 0 = x := by
        have := hsuffix 0
        simpa using this.symm
      have hi : i < full.length := by
        simp only [List.length_cons] at hlen
        omega
      have hsuffix' : ∀ j, t.getD j 0 = full.getD (i + 1 + j) 0 := by
        intro j
        have := hsuffix (j + 1)
        simpa [List.getD_cons_succ, Nat.add_assoc, Nat.add_comm 1 j] using this
      have hlen' : i + 1 + t.length = full.length := by
        simp only [List.length_cons] at hlen
        omega
      by_cases hcmp : best < x
      · have := ih x i (i + 1) hi hx hsuffix' hlen'
        simpa [argmaxAux, hcmp, max_eq_right (le_of_lt hcmp)] using this
      · have := ih best bestIdx (i + 1) hlt hval hsuffix' hlen'
        simpa [argmaxAux, hcmp, max_eq_left (le_of_not_lt hcmp)] using this

lemma argmax_spec (l : List ℚ) (h : l ≠ []) :
    argmax l < l.length ∧ l.getD (argmax l) 0 = maxScore l := by
  cases l with
  | nil => exact absurd rfl h
  | cons x xs =>
      have h0 : (0 : Nat) < (x :: xs).length := by simp
      have hval : (x :: xs).getD 0 0 = x := rfl
      have hsuffix : ∀ j, xs.getD j 0 = (x :: xs).getD (1 + j) 0 := by
        intro j
        simp [Nat.add_comm 1 j, List.getD_cons_succ]
      have hlen : 1 + xs.length = (x :: xs).length := by
        simp [Nat.add_comm]
      have := argmaxAux_spec (x :: xs) xs x 0 1 h0 hval hsuffix hlen
      simpa [argmax, maxScore] using this

lemma argmax_lt_length (l : List ℚ) (h : l ≠ []) : argmax l < l.length :=
  (argmax_spec l h).1

lemma getD_argmax (l : List ℚ) (h : l ≠ []) : l.getD (argmax l) 0 = maxScore l :=
  (argmax_spec l h).2

lemma getD_argmax_mem (l : List ℚ) (h : l ≠ []) : l.getD (argmax l) 0 ∈ l := by
  have hlt := argmax_lt_length l h
  rw [List.getD_eq_getElem l 0 hlt]
  exact List.getElem_mem hlt

/-! ### Shape lemmas for `find_best_response` -/

lemma find_empty (env : Env) (input : String) (h : env.qaData = []) :
    find_best_response env input = ⟨noDataMsg, 0⟩ := by
  simp [find_best_response, h]

lemma find_rejected (env : Env) (input : String) (h0 : env.qaData ≠ [])
    (h1 : rejectedB env (strTrim input) = true) :
    find_best_response env input = ⟨rejectionMsg, 0⟩ := by
  simp [find_best_response, h1, List.isEmpty_iff, h0]

lemma find_pattern_hit (env : Env) (input : String) (h0 : env.qaData ≠ [])
    (h1 : rejectedB env (strTrim input) = false) (r : String)
    (h2 : patternLookup predefinedResponses (processedText env input) = some r) :
    find_best_response env input = ⟨outbound env (strTrim input) r, 1⟩ := by
  simp [find_best_response, h1, List.isEmpty_iff, h0, h2]

lemma find_embed (env : Env) (input : String) (h0 : env.qaData ≠ [])
    (h1 : rejectedB env (strTrim input) = false)
    (h2 : patternLookup predefinedResponses (processedText env input) = none) :
    find_best_response env input =
      (if (env.encodeSims (processedText env input)).getD
            (argmax (env.encodeSims (processedText env input))) 0 < 1 / 2 then
        ⟨outbound env (strTrim input) fallbackMsg,
         (env.encodeSims (processedText env input)).getD
           (argmax (env.encodeSims (processedText env input))) 0⟩
      else
        ⟨outbound env (strTrim input)
           ((env.qaData.getD (argmax (env.encodeSims (processedText env input))) ("", "")).2),
         (env.encodeSims (processedText env input)).getD
           (argmax (env.encodeSims (processedText env input))) 0⟩) := by
  simp [find_best_response, h1, List.isEmpty_iff, h0, h2]

/-- First-match-wins: if some entry of the table has the processed text as its
pattern, `patternLookup` returns the response of such an entry (the first one). -/
lemma patternLookup_of_ex :
    ∀ (tbl : List (String × String)) (t : String),
      (∃ pr ∈ tbl, t = pr.1) →
      ∃ pr ∈ tbl, t = pr.1 ∧ patternLookup tbl t = some pr.2
  | [], _, h => by rcases h with ⟨pr, hpr, _⟩; cases hpr
  | (p, r) :: rest, t, h => by
      by_cases ht : t = p
      · exact ⟨(p, r), List.mem_cons_self _ _, ht, by simp [patternLookup, ht]⟩
      · rcases h with ⟨pr, hpr, hpr2⟩
        rcases List.mem_cons.mp hpr with heq | hmem
        · rw [heq] at hpr2
          exact absurd hpr2 ht
        · rcases patternLookup_of_ex rest t ⟨pr, hmem, hpr2⟩ with ⟨pr', hm', ht', hl'⟩
          exact ⟨pr', List.mem_cons_of_mem _ hm', ht', by simp [patternLookup, ht, hl']⟩

/-! ### Concrete environments used by the witnesses -/

/-- Two-entry dataset, detector reports English, translation service always
failing, embedding scores 0.3 and 0.7. -/
def envW : Env :=
  ⟨[("a", "ans0"), ("b", "ans1")], some "en", fun _ _ => none, fun _ => [3 / 10, 7 / 10]⟩

/-- Empty dataset (dataset file missing at startup). -/
def envEmpty : Env := ⟨[], some "en", fun _ _ => none, fun _ => []⟩

/-- Detector reports Russian, a tag outside the allow-list. -/
def envRu : Env := ⟨[("a", "b")], some "ru", fun _ _ => none, fun _ => [0]⟩

/-- Detector reports English; translation service succeeds, prepending a
marker so its use is observable. -/
def envDev : Env :=
  ⟨[("a", "b")], some "en", fun t _ => some ("TR:" ++ t), fun _ => [1]⟩

/-! ### The claims -/

/-- Claim C1: when the dataset is non-empty and the input is not rejected at
language classification, if the processed text (translated to English when
`needsTranslation` holds, then lowercased and trimmed) coincides with the
pattern of some rule of the fixed table — full-string match, which for this
table of literal patterns is string equality — then `find_best_response`
returns that (first matching) rule's response, translated to the detected
language when `needsTranslation` holds, with confidence exactly 1. -/
theorem C1_pattern_hit_confidence_one (env : Env) (input : String)
    (h0 : env.qaData ≠ []) (h1 : rejectedB env (strTrim input) = false)
    (h2 : ∃ pr ∈ predefinedResponses, processedText env input = pr.1) :
    ∃ pr ∈ predefinedResponses, processedText env input = pr.1 ∧
      find_best_response env input = ⟨outbound env (strTrim input) pr.2, 1⟩ := by
  rcases patternLookup_of_ex predefinedResponses (processedText env input) h2 with
    ⟨pr, hm, ht, hl⟩
  exact ⟨pr, hm, ht, find_pattern_hit env input h0 h1 pr.2 hl⟩

theorem C1_witness :
    ∃ pr ∈ predefinedResponses, processedText envW "Hello" = pr.1 ∧
      find_best_response envW "Hello" = ⟨outbound envW (strTrim "Hello") pr.2, 1⟩ :=
  C1_pattern_hit_confidence_one envW "Hello" (by decide) (by decide)
    ⟨("hello", "Hello! How can I assist you today?"), by decide, by decide⟩

/-- Claim C2: for an input that reaches the embedding step (non-empty dataset,
not rejected, no pattern hit), with the similarity row aligned to the dataset:
every stored score is bounded by the maximum score; if that maximum is below
0.5 the resolver returns the fixed fallback string (translated when needed)
with the raw sub-threshold score as confidence, and if it is at least 0.5 the
resolver returns the stored answer at the argmax index (translated when
needed) with the raw score as confidence. -/
theorem C2_threshold_law (env : Env) (input : String)
    (h0 : env.qaData ≠ []) (h1 : rejectedB env (strTrim input) = false)
    (h2 : patternLookup predefinedResponses (processedText env input) = none)
    (sims : List ℚ) (hs : sims = env.encodeSims (processedText env input))
    (h4 : sims.length = env.qaData.length) :
    (∀ x ∈ sims, x ≤ maxScore sims) ∧
    (maxScore sims < 1 / 2 →
      find_best_response env input =
        ⟨outbound env (strTrim input) fallbackMsg, maxScore sims⟩) ∧
    (1 / 2 ≤ maxScore sims →
      find_best_response env input =
        ⟨outbound env (strTrim input) ((env.qaData.getD (argmax sims) ("", "")).2),
         maxScore sims⟩) := by
  have hne : sims ≠ [] := by
    intro hnil
    rw [hnil] at h4
    exact h0 (List.length_eq_zero.mp h4.symm)
  have hgd : sims.getD (argmax sims) 0 = maxScore sims := getD_argmax sims hne
  have hfe := find_embed env input h0 h1 h2
  rw [← hs] at hfe
  refine ⟨maxScore_ge sims, ?_, ?_⟩
  · intro hlt
    rw [hfe, hgd, if_pos hlt]
  · intro hge
    rw [hfe, hgd, if_neg (not_lt.mpr hge)]

theorem C2_witness :
    find_best_response envW "What is wheat?" = ⟨"ans1", 7 / 10⟩ := by
  have h := (C2_threshold_law envW "What is wheat?" (by decide) (by decide) (by decide)
      [3 / 10, 7 / 10] rfl (by decide)).2.2 (by norm_num [maxScore])
  rw [h]
  have ha : argmax [(3 : ℚ) / 10, 7 / 10] = 1 := by norm_num [argmax, argmaxAux]
  rw [ha]
  simp only [ChatResult.mk.injEq]
  exact ⟨by decide, by norm_num [maxScore]⟩

/-- Claim C3: with a non-empty dataset, when the (possibly keyword-overridden)
detected tag is outside the ten-tag allow-list and the raw text has no
Devanagari-range code point, the resolver returns the fixed rejection message
— the fixed English constant, for every translator and embedding oracle, so
no translation, pattern matching or embedding search affects the result —
with confidence 0. -/
theorem C3_unsupported_language_rejection (env : Env) (input : String)
    (h0 : env.qaData ≠ [])
    (h1 : allowedLanguages.contains (detectedLang env (strTrim input)) = false)
    (h2 : containsDevanagari (strTrim input) = false) :
    find_best_response env input = ⟨rejectionMsg, 0⟩ := by
  apply find_rejected env input h0
  simp only [rejectedB, h1, h2, Bool.not_false, Bool.and_self]

theorem C3_witness : find_best_response envRu "привет" = ⟨rejectionMsg, 0⟩ :=
  C3_unsupported_language_rejection envRu "привет" (by decide) (by decide) (by decide)

/-- Claim C4 counterexample: with the empty dataset, the input "hello" — whose
processed text matches the pattern-table rule "hello" in full — still receives
the fixed no-data message, not the rule's response: the empty-dataset guard
runs before the pattern table, so pattern-table hits do not survive an empty
dataset. -/
theorem C4_counterexample :
    patternLookup predefinedResponses (processedText envEmpty "hello") =
      some "Hello! How can I assist you today?" ∧
    find_best_response envEmpty "hello" = ⟨noDataMsg, 0⟩ ∧
    noDataMsg ≠ "Hello! How can I assist you today?" :=
  ⟨by decide, find_empty envEmpty "hello" rfl, by decide⟩

/-- Claim C4 (amended): when the dataset is empty, every query — including one
whose processed text fully matches a pattern-table rule — returns the fixed
no-data message with confidence 0; the pattern table is never consulted. -/
theorem C4_empty_dataset_always_no_data (env : Env) (input : String)
    (h : env.qaData = []) :
    find_best_response env input = ⟨noDataMsg, 0⟩ :=
  find_empty env input h

theorem C4_witness :
    find_best_response envEmpty "what is the best fertilizer for wheat" = ⟨noDataMsg, 0⟩ :=
  C4_empty_dataset_always_no_data envEmpty "what is the best fertilizer for wheat" rfl

/-- Claim C5: whenever the embedding model's cosine-similarity scores for the
query lie in [0, 1] — the spec's stated range for this model — the confidence
produced by `find_best_response` lies in [0, 1]: the fixed branches return 0
or 1, and the embedding branch returns the raw best score unclamped, which is
then itself one of the (bounded) scores. -/
theorem C5_confidence_in_unit_interval (env : Env) (input : String)
    (h : ∀ q ∈ env.encodeSims (processedText env input), 0 ≤ q ∧ q ≤ 1) :
    0 ≤ (find_best_response env input).confidence ∧
      (find_best_response env input).confidence ≤ 1 := by
  by_cases h0 : env.qaData = []
  · rw [find_empty env input h0]
    norm_num
  · by_cases h1 : rejectedB env (strTrim input)
    · rw [find_rejected env input h0 h1]
      norm_num
    · have h1' : rejectedB env (strTrim input) = false := by simpa using h1
      cases hpat : patternLookup predefinedResponses (processedText env input) with
      | some r =>
          rw [find_pattern_hit env input h0 h1' r hpat]
          norm_num
      | none =>
          rw [find_embed env input h0 h1' hpat]
          by_cases hne : env.encodeSims (processedText env input) = []
          · rw [hne]
            norm_num [argmax, List.getD]
          · have hmem := getD_argmax_mem (env.encodeSims (processedText env input)) hne
            rcases h _ hmem with ⟨hb0, hb1⟩
            by_cases hlt :
                (env.encodeSims (processedText env input)).getD
                  (argmax (env.encodeSims (processedText env input))) 0 < 1 / 2
            · rw [if_pos hlt]
              exact ⟨hb0, hb1⟩
            · rw [if_neg hlt]
              exact ⟨hb0, hb1⟩

theorem C5_witness :
    0 ≤ (find_best_response envW "What is wheat?").confidence ∧
      (find_best_response envW "What is wheat?").confidence ≤ 1 :=
  C5_confidence_in_unit_interval envW "What is wheat?"
    (by
      intro q hq
      have hq' : q ∈ [(3 : ℚ) / 10, 7 / 10] := hq
      rcases List.mem_cons.mp hq' with h | h
      · rw [h]; norm_num
      · rw [List.mem_singleton.mp h]; norm_num)

/-- Claim C6: any input whose trimmed raw text contains — case-insensitively,
as a substring — some token of the fixed romanized Hindi/Marathi keyword
list is forced to the Hindi tag, whatever the statistical detector returned,
and `needsTranslation` is true. -/
theorem C6_keyword_override_forces_hindi (env : Env) (input : String)
    (h : ∃ w ∈ hindiMarathiKeywords, strContainsSub (strLower (strTrim input)) w = true) :
    detectedLang env (strTrim input) = "hi" ∧
      needsTranslation env (strTrim input) = true := by
  have hrom : isRomanish (strTrim input) = true := by
    rcases h with ⟨w, hw, hc⟩
    exact List.any_eq_true.mpr ⟨w, hw, hc⟩
  refine ⟨by simp [detectedLang, hrom], ?_⟩
  simp [needsTranslation, hrom]

theorem C6_witness :
    detectedLang envW (strTrim "Sheti kashi karavi") = "hi" ∧
      needsTranslation envW (strTrim "Sheti kashi karavi") = true :=
  C6_keyword_override_forces_hindi envW "Sheti kashi karavi"
    ⟨"sheti", by decide, by decide⟩

/-- Claim C7: `needsTranslation` holds exactly when the final (overridden)
tag differs from English, or the raw text contains a Devanagari-range
character, or the keyword override fired; and the inbound translation of the
raw input to English is attempted exactly when the flag holds — otherwise
the raw input is passed through untouched. -/
theorem C7_needs_translation_gate (env : Env) (input : String) :
    (needsTranslation env (strTrim input) = true ↔
      (detectedLang env (strTrim input) ≠ "en" ∨
        containsDevanagari (strTrim input) = true ∨
        isRomanish (strTrim input) = true)) ∧
    (needsTranslation env (strTrim input) = true →
      inboundText env (strTrim input) =
        (env.translate (strTrim input) "en").getD (strTrim input)) ∧
    (needsTranslation env (strTrim input) = false →
      inboundText env (strTrim input) = strTrim input) := by
  refine ⟨?_, ?_, ?_⟩
  · simp [needsTranslation, Bool.or_eq_true, bne_iff_ne, or_assoc]
  · intro h
    simp [inboundText, h]
  · intro h
    simp [inboundText, h]

theorem C7_witness :
    detectedLang envDev (strTrim "hello क") = "en" ∧
    needsTranslation envDev (strTrim "hello क") = true ∧
    inboundText envDev (strTrim "hello क") = "TR:hello क" := by
  refine ⟨by decide, by decide, ?_⟩
  have h := (C7_needs_translation_gate envDev "hello क").2.1 (by decide)
  rw [h]
  decide

/-- `env` with every translation call replaced by a successful call returning
what the original call's `try/except` produced: the translated text when the
call succeeds, the untranslated text when it raises. -/
def defaultedEnv (env : Env) : Env :=
  { env with translate := fun t d => some ((env.translate t d).getD t) }

/-- Claim C8: a translation failure at any of the three call sites (inbound
input-to-English, outbound pattern response, outbound embedding answer or
fallback) is non-fatal and local: the pipeline behaves exactly as if that
call had succeeded returning the untranslated string, each call site
independently, and always continues to a normal result — the resolver, a
total function, never aborts. -/
theorem C8_translation_failure_nonfatal (env : Env) (input : String) :
    find_best_response env input = find_best_response (defaultedEnv env) input := by
  have hib : ∀ o, inboundText (defaultedEnv env) o = inboundText env o := by
    intro o
    simp [inboundText, needsTranslation, detectedLang, defaultedEnv]
  have hpt : processedText (defaultedEnv env) input = processedText env input := by
    simp [processedText, hib]
  have hob : ∀ o r, outbound (defaultedEnv env) o r = outbound env o r := by
    intro o r
    simp [outbound, needsTranslation, detectedLang, defaultedEnv]
  have hrej : rejectedB (defaultedEnv env) (strTrim input) = rejectedB env (strTrim input) := rfl
  have hqa : (defaultedEnv env).qaData = env.qaData := rfl
  have henc : (defaultedEnv env).encodeSims = env.encodeSims := rfl
  by_cases h0 : env.qaData = []
  · rw [find_empty env input h0, find_empty (defaultedEnv env) input (hqa.trans h0)]
  · have h0' : (defaultedEnv env).qaData ≠ [] := by rw [hqa]; exact h0
    by_cases h1 : rejectedB env (strTrim input)
    · rw [find_rejected env input h0 h1,
          find_rejected (defaultedEnv env) input h0' (hrej.trans h1)]
    · have h1' : rejectedB env (strTrim input) = false := by simpa using h1
      have h1'' : rejectedB (defaultedEnv env) (strTrim input) = false := hrej.trans h1'
      cases hpat : patternLookup predefinedResponses (processedText env input) with
      | some r =>
          rw [find_pattern_hit env input h0 h1' r hpat,
              find_pattern_hit (defaultedEnv env) input h0' h1'' r (by rw [hpt]; exact hpat),
              hob]
      | none =>
          rw [find_embed env input h0 h1' hpat,
              find_embed (defaultedEnv env) input h0' h1'' (by rw [hpt]; exact hpat), hpt]
          simp only [henc, hqa, hob]

/-- Claim C9: `POST /chat` returns 400 with the fixed guidance body when the
message is absent or trims to empty, and otherwise 200 with the resolver's
response text and the resolver's confidence rounded to two decimals — the
rounding applied only at this boundary, to the resolver's raw confidence. -/
theorem C9_chat_endpoint (env : Env) (message : Option String) :
    (strTrim (message.getD "") = "" →
      chat env message = (400, ⟨"Please enter a valid question.", 0⟩)) ∧
    (strTrim (message.getD "") ≠ "" →
      chat env message =
        (200, ⟨(find_best_response env (strTrim (message.getD ""))).response,
               round2 (find_best_response env (strTrim (message.getD ""))).confidence⟩)) := by
  constructor
  · intro h
    simp [chat, h]
  · intro h
    simp [chat, h]

theorem C9_witness :
    chat envW none = (400, ⟨"Please enter a valid question.", 0⟩) ∧
    chat envW (some "  Hello  ") = (200, ⟨"Hello! How can I assist you today?", 1⟩) := by
  constructor
  · exact (C9_chat_endpoint envW none).1 (by decide)
  · have h := (C9_chat_endpoint envW (some "  Hello  ")).2 (by decide)
    rw [h]
    have harg : strTrim ((some "  Hello  ").getD "") = "Hello" := by decide
    rw [harg]
    have hf : find_best_response envW "Hello" = ⟨"Hello! How can I assist you today?", 1⟩ := by
      rw [find_pattern_hit envW "Hello" (by decide) (by decide)
            "Hello! How can I assist you today?" (by decide)]
      have hout : outbound envW (strTrim "Hello") "Hello! How can I assist you today?" =
          "Hello! How can I assist you today?" := by decide
      rw [hout]
    rw [hf]
    have hr : round2 1 = 1 := by norm_num [round2, roundHalfEven]
    rw [hr]

/-- Claim C10 (implicit behavior): the romanized-keyword override is substring
containment on the lowercased raw input, not whole-token membership — the
pure-English input "We discuss the program", which the detector labels
English (`envW.detect = some "en"`), contains the keyword "rog" inside
"program" and is therefore forced to the Hindi tag with translation
triggered. -/
theorem C10_keyword_substring_not_token :
    envW.detect = some "en" ∧
    strContainsSub (strLower "We discuss the program") "rog" = true ∧
    hindiMarathiKeywords.contains "rog" = true ∧
    detectedLang envW "We discuss the program" = "hi" ∧
    needsTranslation envW "We discuss the program" = true :=
  ⟨rfl, by decide, by decide, by decide, by decide⟩
